import Mathlib

/-
Shallow embedding of check-es-version (src/index.js), the memoized recursive
ECMAScript-compatibility checker.  Pure configuration lives in Options, the
mutable store (the three classification sets plus the error map, kept on the
options object in the source) lives in St, and all external effects
(require of package.json, require.resolve, fs.readFileSync, acorn.parse)
are parameters collected in Env.  An event log in St records each external
call the source performs, so that counting claims about reads, parses and
resolutions can be stated.
-/

namespace CheckEsVersion

/-- Manifest models the parsed package.json object: the name field, the
optional main entry, and the key sets of the dependencies and
peerDependencies objects (Object.keys produces a list of names). -/
structure Manifest where
  name : String
  main : Option String
  dependencies : List String
  peerDependencies : List String
deriving DecidableEq

/-- Event records one external call made by the source: fs.readFileSync on a
script (keyed by the package name being classified), acorn.parse (same key),
require.resolve of a dependency name, and require of a package.json manifest
(keyed by the package name passed to checkDependencies). -/
inductive Event where
  | readScript (name : String)
  | parseScript (name : String)
  | resolveDep (name : String)
  | readManifest (name : String)
deriving DecidableEq

/-- Env packages the external collaborators: manifest reading by directory
path (none models a require that throws), module resolution by dependency
name (none models a require.resolve that throws, which the source turns into
a null path), file reading by path, and the acorn parser at a given
ecmaVersion (error carries the diagnostic message). -/
structure Env where
  readManifest : String → Option Manifest
  resolveScript : String → Option String
  readFile : String → Option String
  parse : Nat → String → Except String Unit

/-- Options models the immutable configuration fields of the options object
built at the top level of the source. -/
structure Options where
  requireResolvePath : String
  esVersion : Nat
  showError : Bool
  showDependencyTree : Bool
deriving DecidableEq

/-- St models the mutable part of the options object: the compatible,
uncompatible and cannotopen Sets (as insertion-ordered duplicate-free
lists), the uncompatibleErrors Map (as an association list), plus the ghost
event log of external calls. -/
structure St where
  compatible : List String
  uncompatible : List String
  cannotopen : List String
  uncompatibleErrors : List (String × String)
  log : List Event
deriving DecidableEq

/-- Empty store, as created at run start at the top level of the source. -/
def St.empty : St := ⟨[], [], [], [], []⟩

/-- A name is recorded when it is a member of one of the three
classification sets. -/
def St.recorded (st : St) (x : String) : Prop :=
  x ∈ st.compatible ∨ x ∈ st.uncompatible ∨ x ∈ st.cannotopen

instance (st : St) (x : String) : Decidable (st.recorded x) :=
  inferInstanceAs (Decidable (x ∈ st.compatible ∨ x ∈ st.uncompatible ∨ x ∈ st.cannotopen))

/-- Append an event to the ghost log. -/
def logEv (e : Event) (st : St) : St :=
  { st with log := st.log ++ [e] }

/-- Set.add on options.compatible: appends the name unless already present. -/
def addCompatible (n : String) (st : St) : St :=
  if n ∈ st.compatible then st else { st with compatible := st.compatible ++ [n] }

/-- Set.add on options.uncompatible. -/
def addUncompatible (n : String) (st : St) : St :=
  if n ∈ st.uncompatible then st else { st with uncompatible := st.uncompatible ++ [n] }

/-- Set.add on options.cannotopen. -/
def addCannotOpen (n : String) (st : St) : St :=
  if n ∈ st.cannotopen then st else { st with cannotopen := st.cannotopen ++ [n] }

/-- Map.set on options.uncompatibleErrors.  The source only ever sets a key
immediately after freshly adding the name to uncompatible, so an append
models it faithfully. -/
def setError (n e : String) (st : St) : St :=
  { st with uncompatibleErrors := st.uncompatibleErrors ++ [(n, e)] }

/-- Number of occurrences of an event in a log. -/
def countEv (e : Event) : List Event → Nat
  | [] => 0
  | f :: rest => (if f = e then 1 else 0) + countEv e rest

/-- Count of script read attempts (fs.readFileSync calls) for a name. -/
def readCount (x : String) (st : St) : Nat := countEv (Event.readScript x) st.log

/-- Count of parse attempts (acorn.parse calls) for a name. -/
def parseCount (x : String) (st : St) : Nat := countEv (Event.parseScript x) st.log

/-- checkScript from src/index.js.  The return value is an Option Bool
because the branch for a name cached in cannotopen falls through the
if-chain without a return statement, so the JavaScript function returns
undefined there (modelled as none).  Console output is not modelled; the
readFileSync call (also when scriptPath is null, where it throws
immediately) and the acorn.parse call are logged as events.  A null
scriptPath or a failing read both land in the catch block and classify
cannotopen. -/
def checkScript (packageName : String) (scriptPath : Option String)
    (opts : Options) (env : Env) (st : St) : St × Option Bool :=
  if packageName ∈ st.compatible then (st, some true)
  else if packageName ∈ st.uncompatible then (st, some false)
  else if packageName ∈ st.cannotopen then (st, none)
  else
    let st₁ := logEv (Event.readScript packageName) st
    match scriptPath.bind env.readFile with
    | none => (addCannotOpen packageName st₁, some false)
    | some code =>
      let st₂ := logEv (Event.parseScript packageName) st₁
      match env.parse opts.esVersion code with
      | Except.ok _ => (addCompatible packageName st₂, some true)
      | Except.error e => (setError packageName e (addUncompatible packageName st₂), some false)

/-- resolve(options.requireResolvePath, node_modules/dep) from the source. -/
def depDir (opts : Options) (dep : String) : String :=
  opts.requireResolvePath ++ "/node_modules/" ++ dep

/-- Lexicographic strict order on character lists by code point, modelling
the default JavaScript Array.prototype.sort comparison on the code units of
package names (identical to code-point order on the ASCII names involved). -/
def strLtChars : List Char → List Char → Bool
  | [], [] => false
  | [], _ :: _ => true
  | _ :: _, [] => false
  | a :: as, b :: bs =>
    if a.toNat < b.toNat then true
    else if b.toNat < a.toNat then false
    else strLtChars as bs

/-- Non-strict string order derived from strLtChars. -/
def strLe (a b : String) : Bool := !(strLtChars b.data a.data)

/-- Relation form of strLe, used for the sort. -/
def StrLeRel (a b : String) : Prop := strLe a b = true

instance (a b : String) : Decidable (StrLeRel a b) :=
  inferInstanceAs (Decidable (strLe a b = true))

/-- The dependency list built by checkDependencies:
Object.keys(dependencies).concat(Object.keys(peerDependencies)).sort(). -/
def depsOf (m : Manifest) : List String :=
  List.insertionSort StrLeRel (m.dependencies ++ m.peerDependencies)

/-- The dependencies.forEach loop body of checkDependencies: for each
dependency, attempt require.resolve (logged; failure yields a null path),
call checkScript, and when the result is not true, recurse into the
dependency directory.  The recursion is abstracted as the function argument
so the loop is structurally recursive on the list; the Bool result is the
completion flag threaded from the fuel-limited recursion (false = the run
aborted by exhausting the recursion budget, modelling a stack overflow), in
which case the remaining iterations never execute. -/
def dependencyLoop (opts : Options) (env : Env)
    (recurse : String → St → St × Bool) : List String → St → St × Bool
  | [], st => (st, true)
  | dep :: rest, st =>
    let st₁ := logEv (Event.resolveDep dep) st
    let res := checkScript dep (env.resolveScript dep) opts env st₁
    if res.2 = some true then
      dependencyLoop opts env recurse rest res.1
    else
      let sub := recurse dep res.1
      if sub.2 then dependencyLoop opts env recurse rest sub.1 else sub

/-- checkDependencies from src/index.js, with an explicit fuel bounding the
recursion depth.  At fuel zero the run aborts with completion flag false
(the JavaScript original has no such bound and overflows the stack
instead); with positive fuel the body mirrors the source: log and attempt
the manifest require (failure classifies the package cannotopen and
returns), then run the forEach loop over the sorted dependency names,
recursing at fuel one less.  The JavaScript return value of
checkDependencies is ignored by every caller and is not modelled; the Bool
here is only the completion flag. -/
def checkDependencies : Nat → String → String → Options → Env → St → St × Bool
  | 0, _, _, _, _, st => (st, false)
  | fuel + 1, packageName, packagePath, opts, env, st =>
    let st₁ := logEv (Event.readManifest packageName) st
    match env.readManifest packagePath with
    | none => (addCannotOpen packageName st₁, true)
    | some packageInfo =>
      dependencyLoop opts env
        (fun dep s => checkDependencies fuel dep (depDir opts dep) opts env s)
        (depsOf packageInfo) st₁

/-- resolve(packagePath, package.main) from checkEsCompatible when main is
declared; null when it is absent. -/
def mainScriptPath (packagePath : String) (m : Manifest) : Option String :=
  m.main.map (fun p => packagePath ++ "/" ++ p)

/-- The uncaught TypeError raised by the dependency-walk call site of
checkEsCompatible (see checkEsCompatible below for the analysis). -/
def typeErrorMessage : String :=
  "TypeError: undefined has no add method"

/-- checkEsCompatible from src/index.js.  Reading the root manifest is not
wrapped in try/catch, so a failure is an uncaught exception (left branch).
Otherwise the root name (renamed from the dot to the manifest name) is
classified by checkScript on the resolved main script.  The next source
line is
  checkDependencies(packagePath, options, indent + 1);
which passes three arguments to the four-parameter function
checkDependencies(packageName, packagePath, options, indent).  Inside that
call, packageName is the path string, packagePath is the options object,
options is the number indent + 1, and indent is undefined.
path.resolve(options-object, ...) throws a TypeError that the catch block
swallows; the catch then evaluates options.showDependencyTree on the
number (undefined, hence falsy) and options.cannotopen.add(packageName),
where options.cannotopen is undefined, raising an uncaught TypeError.
checkEsCompatible therefore never reaches the report rendering nor its
final return statement; the error value carries the store as it stands at
the crash. -/
def checkEsCompatible (packageName packagePath : String) (opts : Options)
    (env : Env) (st : St) : Except (String × St) (St × Bool) :=
  match env.readManifest packagePath with
  | none => Except.error ("uncaught Error: cannot find package.json", st)
  | some package =>
    let name := if packageName = "." then package.name else packageName
    let st₁ := (checkScript name (mainScriptPath packagePath package) opts env st).1
    Except.error (typeErrorMessage, st₁)

/-- The aggregate expression of the final line of checkEsCompatible:
options.uncompatible.size === 0. -/
def aggregateResult (st : St) : Bool := st.uncompatible.isEmpty

/-- Completion flag of a package-mode run: false when the run ended in an
uncaught exception. -/
def completedRun : Except (String × St) (St × Bool) → Bool
  | Except.ok _ => true
  | Except.error _ => false

/-- Store at the end of a package-mode run, whether it crashed or not. -/
def crashState : Except (String × St) (St × Bool) → St
  | Except.ok r => r.1
  | Except.error r => r.2

/-- Top level of src/index.js in package mode: packagePath is the dot for
the current package and node_modules/name otherwise; checkEsCompatible runs
on the empty store and its boolean result is discarded.  Node exits with
status zero on normal completion and a nonzero status on an uncaught
exception; no process.exit call exists in the source. -/
def packageModeExit (packageName : String) (opts : Options) (env : Env) : Nat :=
  match checkEsCompatible packageName
      (if packageName = "." then "." else depDir opts packageName)
      opts env St.empty with
  | Except.ok _ => 0
  | Except.error _ => 1

/-- Invariant of the traversal: every name has at most one script read and
one parse over the whole run, and an unrecorded name has none. -/
def ReadParseInv (st : St) : Prop :=
  ∀ x : String, readCount x st ≤ 1 ∧ parseCount x st ≤ 1 ∧
    (¬ st.recorded x → readCount x st = 0 ∧ parseCount x st = 0)

/-- Default configuration of the command line: requireResolvePath dot,
esVersion five, showError false, showDependencyTree true. -/
def optsW : Options := ⟨".", 5, false, true⟩

/-- Root manifest of the concrete healthy run: name root, main index.js,
no dependencies. -/
def rootManifest : Manifest := ⟨"root", some "index.js", [], []⟩

/-- Environment of the concrete healthy run: readable root manifest in the
current directory, readable parseable main script, nothing else. -/
def envOk : Env :=
  { readManifest := fun p => if p = "." then some rootManifest else none
    resolveScript := fun _ => none
    readFile := fun p => if p = "./index.js" then some "var x = 1" else none
    parse := fun _ _ => Except.ok () }

/-- Environment of the revisit run: the root depends on a and b, package a
depends on e, package b depends on a; the entry scripts of a and b do not
resolve while e resolves to a readable parseable script.  After a is
classified cannotopen under the root, the walk under b meets a again,
resolves it again, re-reads its manifest and redescends to e. -/
def envRevisit : Env :=
  { readManifest := fun p =>
      if p = "rootdir" then some ⟨"root", none, ["a", "b"], []⟩
      else if p = "./node_modules/a" then some ⟨"a", none, ["e"], []⟩
      else if p = "./node_modules/b" then some ⟨"b", none, ["a"], []⟩
      else none
    resolveScript := fun d => if d = "e" then some "e.js" else none
    readFile := fun p => if p = "e.js" then some "ok" else none
    parse := fun _ code => if code = "ok" then Except.ok () else Except.error "SyntaxError" }

/-- Environment of the cyclic run: package a depends on b and package b
depends on a; both entry scripts resolve and read but fail to parse. -/
def envCycle : Env :=
  { readManifest := fun p =>
      if p = depDir optsW "a" then some ⟨"a", none, ["b"], []⟩
      else if p = depDir optsW "b" then some ⟨"b", none, ["a"], []⟩
      else none
    resolveScript := fun d =>
      if d = "a" then some "a.js" else if d = "b" then some "b.js" else none
    readFile := fun p =>
      if p = "a.js" then some "arrow" else if p = "b.js" then some "arrow" else none
    parse := fun _ _ => Except.error "SyntaxError" }

/-- Environment of the double classification run: the root depends on a,
whose entry script resolves and reads but fails to parse, and whose own
manifest is unreadable. -/
def envDouble : Env :=
  { readManifest := fun p => if p = "rootdir" then some ⟨"root", none, ["a"], []⟩ else none
    resolveScript := fun d => if d = "a" then some "a.js" else none
    readFile := fun p => if p = "a.js" then some "arrow" else none
    parse := fun _ _ => Except.error "SyntaxError" }

/-- Environment of the stylesheet run: the resolved path of the package
named styles has a stylesheet suffix, its content is readable and is not
parseable JavaScript. -/
def envCss : Env :=
  { readManifest := fun _ => none
    resolveScript := fun d => if d = "styles" then some "theme.css" else none
    readFile := fun p => if p = "theme.css" then some "some css text" else none
    parse := fun _ code => if code = "ok" then Except.ok () else Except.error "SyntaxError" }

/-- Manifest with one runtime dependency b and one peer dependency a. -/
def peerManifest : Manifest := ⟨"m", none, ["b"], ["a"]⟩

/-- Store extension relation: every classification entry and every logged
event of the first store is still present in the second. -/
def Grows (st₁ st₂ : St) : Prop :=
  (∀ x, x ∈ st₁.compatible → x ∈ st₂.compatible) ∧
  (∀ x, x ∈ st₁.uncompatible → x ∈ st₂.uncompatible) ∧
  (∀ x, x ∈ st₁.cannotopen → x ∈ st₂.cannotopen) ∧
  (∀ e, e ∈ st₁.log → e ∈ st₂.log)

theorem countEv_append (e : Event) (l m : List Event) :
    countEv e (l ++ m) = countEv e l + countEv e m := by
  induction l with
  | nil => simp [countEv]
  | cons f rest ih => simp [countEv, ih]; omega

theorem strLtChars_asymm : ∀ x y, strLtChars x y = true → strLtChars y x = false := by
  intro x
  induction x with
  | nil =>
    intro y h
    cases y with
    | nil => simp [strLtChars] at h
    | cons b bs => simp [strLtChars]
  | cons a as ih =>
    intro y h
    cases y with
    | nil => simp [strLtChars] at h
    | cons b bs =>
      simp only [strLtChars] at h ⊢
      by_cases hab : a.toNat < b.toNat
      · simp [show ¬ b.toNat < a.toNat by omega, show ¬ a.toNat = b.toNat by omega]
        omega
      · by_cases hba : b.toNat < a.toNat
        · simp [hab, hba] at h
        · simp only [hab, hba, if_false] at h ⊢
          simp [ih bs h]

theorem strLtChars_neg_trans :
    ∀ a b c, strLtChars b a = false → strLtChars c b = false → strLtChars c a = false := by
  intro a
  induction a with
  | nil =>
    intro b c h1 h2
    cases c with
    | nil => simp [strLtChars]
    | cons z zs => simp [strLtChars]
  | cons x xs ih =>
    intro b c h1 h2
    cases b with
    | nil => simp [strLtChars] at h1
    | cons y ys =>
      cases c with
      | nil => simp [strLtChars] at h2
      | cons z zs =>
        simp only [strLtChars] at h1 h2 ⊢
        by_cases hyx : y.toNat < x.toNat
        · simp [hyx] at h1
        · by_cases hzy : z.toNat < y.toNat
          · simp [hzy] at h2
          · by_cases hzx : z.toNat < x.toNat
            · omega
            · simp only [hzx, if_false]
              by_cases hxz : x.toNat < z.toNat
              · simp [hxz]
              · simp only [hxz, if_false]
                have hxy : ¬ x.toNat < y.toNat := by omega
                have hyz : ¬ y.toNat < z.toNat := by omega
                simp only [hyx, hxy, if_false] at h1
                simp only [hzy, hyz, if_false] at h2
                exact ih ys zs h1 h2

theorem strLe_total (a b : String) : strLe a b = true ∨ strLe b a = true := by
  by_cases h : strLe a b = true
  · exact Or.inl h
  · refine Or.inr ?_
    have h1 : strLtChars b.data a.data = true := by
      unfold strLe at h
      simpa using h
    unfold strLe
    simp [strLtChars_asymm _ _ h1]

theorem strLe_trans (a b c : String)
    (h1 : strLe a b = true) (h2 : strLe b c = true) : strLe a c = true := by
  unfold strLe at h1 h2 ⊢
  simp only [Bool.not_eq_true'] at h1 h2 ⊢
  exact strLtChars_neg_trans a.data b.data c.data h1 h2

instance : IsTotal String StrLeRel := ⟨fun a b => strLe_total a b⟩

instance : IsTrans String StrLeRel := ⟨fun a b c h1 h2 => strLe_trans a b c h1 h2⟩

theorem logEv_compatible (e : Event) (st : St) : (logEv e st).compatible = st.compatible := rfl

theorem logEv_uncompatible (e : Event) (st : St) : (logEv e st).uncompatible = st.uncompatible := rfl

theorem logEv_cannotopen (e : Event) (st : St) : (logEv e st).cannotopen = st.cannotopen := rfl

theorem logEv_log (e : Event) (st : St) : (logEv e st).log = st.log ++ [e] := rfl

theorem addCompatible_uncompatible (n : String) (st : St) :
    (addCompatible n st).uncompatible = st.uncompatible := by
  unfold addCompatible; split <;> rfl

theorem addCompatible_cannotopen (n : String) (st : St) :
    (addCompatible n st).cannotopen = st.cannotopen := by
  unfold addCompatible; split <;> rfl

theorem addCompatible_log (n : String) (st : St) : (addCompatible n st).log = st.log := by
  unfold addCompatible; split <;> rfl

theorem addUncompatible_compatible (n : String) (st : St) :
    (addUncompatible n st).compatible = st.compatible := by
  unfold addUncompatible; split <;> rfl

theorem addUncompatible_cannotopen (n : String) (st : St) :
    (addUncompatible n st).cannotopen = st.cannotopen := by
  unfold addUncompatible; split <;> rfl

theorem addUncompatible_log (n : String) (st : St) : (addUncompatible n st).log = st.log := by
  unfold addUncompatible; split <;> rfl

theorem addCannotOpen_compatible (n : String) (st : St) :
    (addCannotOpen n st).compatible = st.compatible := by
  unfold addCannotOpen; split <;> rfl

theorem addCannotOpen_uncompatible (n : String) (st : St) :
    (addCannotOpen n st).uncompatible = st.uncompatible := by
  unfold addCannotOpen; split <;> rfl

theorem addCannotOpen_log (n : String) (st : St) : (addCannotOpen n st).log = st.log := by
  unfold addCannotOpen; split <;> rfl

theorem setError_compatible (n e : String) (st : St) :
    (setError n e st).compatible = st.compatible := rfl

theorem setError_uncompatible (n e : String) (st : St) :
    (setError n e st).uncompatible = st.uncompatible := rfl

theorem setError_cannotopen (n e : String) (st : St) :
    (setError n e st).cannotopen = st.cannotopen := rfl

theorem setError_log (n e : String) (st : St) : (setError n e st).log = st.log := rfl

theorem mem_addCompatible_self (n : String) (st : St) :
    n ∈ (addCompatible n st).compatible := by
  unfold addCompatible; split
  · assumption
  · exact List.mem_append_right _ (List.mem_singleton_self n)

theorem mem_addUncompatible_self (n : String) (st : St) :
    n ∈ (addUncompatible n st).uncompatible := by
  unfold addUncompatible; split
  · assumption
  · exact List.mem_append_right _ (List.mem_singleton_self n)

theorem mem_addCannotOpen_self (n : String) (st : St) :
    n ∈ (addCannotOpen n st).cannotopen := by
  unfold addCannotOpen; split
  · assumption
  · exact List.mem_append_right _ (List.mem_singleton_self n)

theorem readCount_congr (a b : St) (h : a.log = b.log) (x : String) :
    readCount x a = readCount x b := by
  unfold readCount; rw [h]

theorem parseCount_congr (a b : St) (h : a.log = b.log) (x : String) :
    parseCount x a = parseCount x b := by
  unfold parseCount; rw [h]

theorem readCount_logEv (e : Event) (x : String) (st : St) :
    readCount x (logEv e st) = readCount x st + (if e = Event.readScript x then 1 else 0) := by
  unfold readCount logEv
  simp [countEv_append, countEv]

theorem parseCount_logEv (e : Event) (x : String) (st : St) :
    parseCount x (logEv e st) = parseCount x st + (if e = Event.parseScript x then 1 else 0) := by
  unfold parseCount logEv
  simp [countEv_append, countEv]

theorem recorded_logEv (e : Event) (st : St) (x : String) :
    (logEv e st).recorded x ↔ st.recorded x := Iff.rfl

theorem recorded_setError (n e : String) (st : St) (x : String) :
    (setError n e st).recorded x ↔ st.recorded x := Iff.rfl

theorem recorded_addCompatible (n x : String) (st : St) :
    (addCompatible n st).recorded x ↔ (st.recorded x ∨ x = n) := by
  unfold addCompatible St.recorded
  split
  next h =>
    constructor
    · exact Or.inl
    · rintro (hr | rfl)
      · exact hr
      · exact Or.inl h
  next h =>
    simp only [List.mem_append, List.mem_singleton]
    tauto

theorem recorded_addUncompatible (n x : String) (st : St) :
    (addUncompatible n st).recorded x ↔ (st.recorded x ∨ x = n) := by
  unfold addUncompatible St.recorded
  split
  next h =>
    constructor
    · exact Or.inl
    · rintro (hr | rfl)
      · exact hr
      · exact Or.inr (Or.inl h)
  next h =>
    simp only [List.mem_append, List.mem_singleton]
    tauto

theorem recorded_addCannotOpen (n x : String) (st : St) :
    (addCannotOpen n st).recorded x ↔ (st.recorded x ∨ x = n) := by
  unfold addCannotOpen St.recorded
  split
  next h =>
    constructor
    · exact Or.inl
    · rintro (hr | rfl)
      · exact hr
      · exact Or.inr (Or.inr h)
  next h =>
    simp only [List.mem_append, List.mem_singleton]
    tauto

theorem checkScript_cached_compatible (n : String) (p : Option String) (opts : Options)
    (env : Env) (st : St) (h : n ∈ st.compatible) :
    checkScript n p opts env st = (st, some true) := by
  unfold checkScript; simp [h]

theorem checkScript_cached_uncompatible (n : String) (p : Option String) (opts : Options)
    (env : Env) (st : St) (h1 : n ∉ st.compatible) (h2 : n ∈ st.uncompatible) :
    checkScript n p opts env st = (st, some false) := by
  unfold checkScript; simp [h1, h2]

theorem checkScript_cached_cannotopen (n : String) (p : Option String) (opts : Options)
    (env : Env) (st : St) (h1 : n ∉ st.compatible) (h2 : n ∉ st.uncompatible)
    (h3 : n ∈ st.cannotopen) :
    checkScript n p opts env st = (st, none) := by
  unfold checkScript; simp [h1, h2, h3]

theorem checkScript_fresh_shape (n : String) (p : Option String) (opts : Options)
    (env : Env) (st : St) (h1 : n ∉ st.compatible) (h2 : n ∉ st.uncompatible)
    (h3 : n ∉ st.cannotopen) :
    checkScript n p opts env st =
      match p.bind env.readFile with
      | none => (addCannotOpen n (logEv (Event.readScript n) st), some false)
      | some code =>
        match env.parse opts.esVersion code with
        | Except.ok _ =>
          (addCompatible n (logEv (Event.parseScript n) (logEv (Event.readScript n) st)), some true)
        | Except.error e =>
          (setError n e (addUncompatible n (logEv (Event.parseScript n) (logEv (Event.readScript n) st))),
            some false) := by
  unfold checkScript; simp [h1, h2, h3]

theorem Grows_refl (st : St) : Grows st st :=
  ⟨fun _ h => h, fun _ h => h, fun _ h => h, fun _ h => h⟩

theorem Grows_trans (a b c : St) (h1 : Grows a b) (h2 : Grows b c) : Grows a c :=
  ⟨fun x h => h2.1 x (h1.1 x h),
   fun x h => h2.2.1 x (h1.2.1 x h),
   fun x h => h2.2.2.1 x (h1.2.2.1 x h),
   fun e h => h2.2.2.2 e (h1.2.2.2 e h)⟩

theorem Grows_logEv (e : Event) (st : St) : Grows st (logEv e st) :=
  ⟨fun _ h => h, fun _ h => h, fun _ h => h,
   fun f h => by rw [logEv_log]; exact List.mem_append_left _ h⟩

theorem Grows_addCompatible (n : String) (st : St) : Grows st (addCompatible n st) := by
  refine ⟨fun x h => ?_, fun x h => ?_, fun x h => ?_, fun e h => ?_⟩
  · unfold addCompatible; split
    · exact h
    · exact List.mem_append_left _ h
  · rw [addCompatible_uncompatible]; exact h
  · rw [addCompatible_cannotopen]; exact h
  · rw [addCompatible_log]; exact h

theorem Grows_addUncompatible (n : String) (st : St) : Grows st (addUncompatible n st) := by
  refine ⟨fun x h => ?_, fun x h => ?_, fun x h => ?_, fun e h => ?_⟩
  · rw [addUncompatible_compatible]; exact h
  · unfold addUncompatible; split
    · exact h
    · exact List.mem_append_left _ h
  · rw [addUncompatible_cannotopen]; exact h
  · rw [addUncompatible_log]; exact h

theorem Grows_addCannotOpen (n : String) (st : St) : Grows st (addCannotOpen n st) := by
  refine ⟨fun x h => ?_, fun x h => ?_, fun x h => ?_, fun e h => ?_⟩
  · rw [addCannotOpen_compatible]; exact h
  · rw [addCannotOpen_uncompatible]; exact h
  · unfold addCannotOpen; split
    · exact h
    · exact List.mem_append_left _ h
  · rw [addCannotOpen_log]; exact h

theorem Grows_setError (n e : String) (st : St) : Grows st (setError n e st) :=
  ⟨fun _ h => h, fun _ h => h, fun _ h => h, fun _ h => h⟩

theorem checkScript_grows (n : String) (p : Option String) (opts : Options)
    (env : Env) (st : St) : Grows st (checkScript n p opts env st).1 := by
  by_cases h1 : n ∈ st.compatible
  · rw [checkScript_cached_compatible n p opts env st h1]; exact Grows_refl st
  by_cases h2 : n ∈ st.uncompatible
  · rw [checkScript_cached_uncompatible n p opts env st h1 h2]; exact Grows_refl st
  by_cases h3 : n ∈ st.cannotopen
  · rw [checkScript_cached_cannotopen n p opts env st h1 h2 h3]; exact Grows_refl st
  rw [checkScript_fresh_shape n p opts env st h1 h2 h3]
  cases hr : p.bind env.readFile with
  | none =>
    exact Grows_trans _ _ _ (Grows_logEv _ st) (Grows_addCannotOpen n _)
  | some code =>
    dsimp only
    cases hp : env.parse opts.esVersion code with
    | ok u =>
      exact Grows_trans _ _ _ (Grows_logEv _ st)
        (Grows_trans _ _ _ (Grows_logEv _ _) (Grows_addCompatible n _))
    | error e =>
      exact Grows_trans _ _ _ (Grows_logEv _ st)
        (Grows_trans _ _ _ (Grows_logEv _ _)
          (Grows_trans _ _ _ (Grows_addUncompatible n _) (Grows_setError n e _)))

theorem dependencyLoop_grows (opts : Options) (env : Env)
    (recurse : String → St → St × Bool)
    (hrec : ∀ d s, Grows s (recurse d s).1) :
    ∀ (deps : List String) (st : St), Grows st (dependencyLoop opts env recurse deps st).1 := by
  intro deps
  induction deps with
  | nil => intro st; exact Grows_refl st
  | cons d rest ih =>
    intro st
    simp only [dependencyLoop]
    have g1 : Grows st (logEv (Event.resolveDep d) st) := Grows_logEv _ st
    have g2 := checkScript_grows d (env.resolveScript d) opts env (logEv (Event.resolveDep d) st)
    split
    · exact Grows_trans _ _ _ (Grows_trans _ _ _ g1 g2) (ih _)
    · have g3 := hrec d (checkScript d (env.resolveScript d) opts env (logEv (Event.resolveDep d) st)).1
      split
      · exact Grows_trans _ _ _ (Grows_trans _ _ _ (Grows_trans _ _ _ g1 g2) g3) (ih _)
      · exact Grows_trans _ _ _ (Grows_trans _ _ _ g1 g2) g3

theorem checkDependencies_grows :
    ∀ (fuel : Nat) (n path : String) (opts : Options) (env : Env) (st : St),
      Grows st (checkDependencies fuel n path opts env st).1 := by
  intro fuel
  induction fuel with
  | zero => intro n path opts env st; exact Grows_refl st
  | succ f ih =>
    intro n path opts env st
    simp only [checkDependencies]
    cases hm : env.readManifest path with
    | none =>
      exact Grows_trans _ _ _ (Grows_logEv _ st) (Grows_addCannotOpen n _)
    | some m =>
      exact Grows_trans _ _ _ (Grows_logEv _ st)
        (dependencyLoop_grows opts env _ (fun d s => ih d (depDir opts d) opts env s) (depsOf m) _)

theorem ReadParseInv_extend (st st₂ : St) (n : String) (b : Nat) (hb : b ≤ 1)
    (hrec : ∀ x, st₂.recorded x ↔ (st.recorded x ∨ x = n))
    (hrc : ∀ x, readCount x st₂ = readCount x st + (if n = x then 1 else 0))
    (hpc : ∀ x, parseCount x st₂ = parseCount x st + (if n = x then b else 0))
    (hn : ¬ st.recorded n) (h : ReadParseInv st) : ReadParseInv st₂ := by
  intro x
  rcases h x with ⟨hx1, hx2, hx3⟩
  by_cases hxn : n = x
  · subst hxn
    rcases hx3 hn with ⟨h0r, h0p⟩
    refine ⟨?_, ?_, ?_⟩
    · rw [hrc n]; simp [h0r]
    · rw [hpc n]; simp [h0p]; omega
    · intro hr; exact absurd ((hrec n).mpr (Or.inr rfl)) hr
  · refine ⟨?_, ?_, ?_⟩
    · rw [hrc x]; simp only [if_neg hxn]; omega
    · rw [hpc x]; simp only [if_neg hxn]; omega
    · intro hr
      have hns : ¬ st.recorded x := fun hc => hr ((hrec x).mpr (Or.inl hc))
      rcases hx3 hns with ⟨h0r, h0p⟩
      rw [hrc x, hpc x]
      simp only [if_neg hxn]
      omega

theorem rp_logEv_other (e : Event) (st : St)
    (h1 : ∀ x, e ≠ Event.readScript x) (h2 : ∀ x, e ≠ Event.parseScript x)
    (h : ReadParseInv st) : ReadParseInv (logEv e st) := by
  intro x
  have hr : readCount x (logEv e st) = readCount x st := by
    rw [readCount_logEv]; simp [h1 x]
  have hp : parseCount x (logEv e st) = parseCount x st := by
    rw [parseCount_logEv]; simp [h2 x]
  rcases h x with ⟨a1, a2, a3⟩
  exact ⟨hr ▸ a1, hp ▸ a2, fun hnr => by rw [hr, hp]; exact a3 hnr⟩

theorem rp_addCannotOpen (n : String) (st : St) (h : ReadParseInv st) :
    ReadParseInv (addCannotOpen n st) := by
  intro x
  have hr : readCount x (addCannotOpen n st) = readCount x st :=
    readCount_congr _ _ (addCannotOpen_log n st) x
  have hp : parseCount x (addCannotOpen n st) = parseCount x st :=
    parseCount_congr _ _ (addCannotOpen_log n st) x
  rcases h x with ⟨a1, a2, a3⟩
  refine ⟨hr ▸ a1, hp ▸ a2, fun hnr => ?_⟩
  rw [hr, hp]
  apply a3
  intro hc
  exact hnr ((recorded_addCannotOpen n x st).mpr (Or.inl hc))

theorem checkScript_rp (n : String) (p : Option String) (opts : Options) (env : Env)
    (st : St) (h : ReadParseInv st) : ReadParseInv (checkScript n p opts env st).1 := by
  by_cases h1 : n ∈ st.compatible
  · rw [checkScript_cached_compatible n p opts env st h1]; exact h
  by_cases h2 : n ∈ st.uncompatible
  · rw [checkScript_cached_uncompatible n p opts env st h1 h2]; exact h
  by_cases h3 : n ∈ st.cannotopen
  · rw [checkScript_cached_cannotopen n p opts env st h1 h2 h3]; exact h
  have hn : ¬ st.recorded n := by simp [St.recorded, h1, h2, h3]
  rw [checkScript_fresh_shape n p opts env st h1 h2 h3]
  cases hr : p.bind env.readFile with
  | none =>
    refine ReadParseInv_extend st _ n 0 (by omega) ?_ ?_ ?_ hn h
    · intro x
      rw [recorded_addCannotOpen n x _]
      exact Iff.rfl
    · intro x
      rw [readCount_congr _ _ (addCannotOpen_log n _) x, readCount_logEv]
      simp [Event.readScript.injEq]
    · intro x
      rw [parseCount_congr _ _ (addCannotOpen_log n _) x, parseCount_logEv]
      simp
  | some code =>
    dsimp only
    cases hp : env.parse opts.esVersion code with
    | ok u =>
      refine ReadParseInv_extend st _ n 1 (by omega) ?_ ?_ ?_ hn h
      · intro x
        rw [recorded_addCompatible n x _]
        exact Iff.rfl
      · intro x
        rw [readCount_congr _ _ (addCompatible_log n _) x, readCount_logEv, readCount_logEv]
        simp [Event.readScript.injEq]
      · intro x
        rw [parseCount_congr _ _ (addCompatible_log n _) x, parseCount_logEv, parseCount_logEv]
        simp [Event.parseScript.injEq]
    | error e =>
      refine ReadParseInv_extend st _ n 1 (by omega) ?_ ?_ ?_ hn h
      · intro x
        rw [recorded_setError n e _ x, recorded_addUncompatible n x _]
        exact Iff.rfl
      · intro x
        rw [readCount_congr _ _ (setError_log n e _) x,
          readCount_congr _ _ (addUncompatible_log n _) x, readCount_logEv, readCount_logEv]
        simp [Event.readScript.injEq]
      · intro x
        rw [parseCount_congr _ _ (setError_log n e _) x,
          parseCount_congr _ _ (addUncompatible_log n _) x, parseCount_logEv, parseCount_logEv]
        simp [Event.parseScript.injEq]

theorem dependencyLoop_rp (opts : Options) (env : Env)
    (recurse : String → St → St × Bool)
    (hrec : ∀ d s, ReadParseInv s → ReadParseInv (recurse d s).1) :
    ∀ (deps : List String) (st : St),
      ReadParseInv st → ReadParseInv (dependencyLoop opts env recurse deps st).1 := by
  intro deps
  induction deps with
  | nil => intro st h; exact h
  | cons d rest ih =>
    intro st h
    simp only [dependencyLoop]
    have h₁ : ReadParseInv (logEv (Event.resolveDep d) st) :=
      rp_logEv_other _ st (fun x => by simp) (fun x => by simp) h
    have h₂ := checkScript_rp d (env.resolveScript d) opts env _ h₁
    split
    · exact ih _ h₂
    · have h₃ := hrec d _ h₂
      split
      · exact ih _ h₃
      · exact h₃

theorem checkDependencies_rp :
    ∀ (fuel : Nat) (n path : String) (opts : Options) (env : Env) (st : St),
      ReadParseInv st → ReadParseInv (checkDependencies fuel n path opts env st).1 := by
  intro fuel
  induction fuel with
  | zero => intro n path opts env st h; exact h
  | succ f ih =>
    intro n path opts env st h
    simp only [checkDependencies]
    have h₁ : ReadParseInv (logEv (Event.readManifest n) st) :=
      rp_logEv_other _ st (fun x => by simp) (fun x => by simp) h
    cases hm : env.readManifest path with
    | none => exact rp_addCannotOpen n _ h₁
    | some m =>
      exact dependencyLoop_rp opts env _
        (fun d s hs => ih d (depDir opts d) opts env s hs) (depsOf m) _ h₁

theorem rp_empty : ReadParseInv St.empty := by
  intro x
  refine ⟨?_, ?_, fun _ => ⟨?_, ?_⟩⟩ <;>
    simp [readCount, parseCount, St.empty, countEv]

theorem cycle_branch (f : Nat) (u v : String) (st : St)
    (hm : envCycle.readManifest (depDir optsW u) = some ⟨u, none, [v], []⟩)
    (hd : depsOf ⟨u, none, [v], []⟩ = [v])
    (hrs : envCycle.resolveScript v = some (v ++ ".js"))
    (hrf : envCycle.readFile (v ++ ".js") = some "arrow")
    (hv1 : v ∉ st.compatible) (hv3 : v ∉ st.cannotopen)
    (hu1 : u ∉ st.compatible) (hu3 : u ∉ st.cannotopen)
    (hih : ∀ s : St, v ∉ s.compatible → v ∉ s.cannotopen → u ∉ s.compatible → u ∉ s.cannotopen →
      (checkDependencies f v (depDir optsW v) optsW envCycle s).2 = false) :
    (checkDependencies (f + 1) u (depDir optsW u) optsW envCycle st).2 = false := by
  simp only [checkDependencies]
  rw [hm]
  dsimp only
  rw [hd]
  simp only [dependencyLoop]
  rw [hrs]
  by_cases hvu : v ∈ st.uncompatible
  · have hcs : checkScript v (some (v ++ ".js")) optsW envCycle
        (logEv (Event.resolveDep v) (logEv (Event.readManifest u) st)) =
        (logEv (Event.resolveDep v) (logEv (Event.readManifest u) st), some false) :=
      checkScript_cached_uncompatible v _ optsW envCycle _ hv1 hvu
    have hsub := hih (logEv (Event.resolveDep v) (logEv (Event.readManifest u) st))
      hv1 hv3 hu1 hu3
    simp [hcs, hsub]
  · have hcs : checkScript v (some (v ++ ".js")) optsW envCycle
        (logEv (Event.resolveDep v) (logEv (Event.readManifest u) st)) =
        (setError v "SyntaxError" (addUncompatible v (logEv (Event.parseScript v)
          (logEv (Event.readScript v)
            (logEv (Event.resolveDep v) (logEv (Event.readManifest u) st))))), some false) := by
      rw [checkScript_fresh_shape v (some (v ++ ".js")) optsW envCycle
        (logEv (Event.resolveDep v) (logEv (Event.readManifest u) st)) hv1 hvu hv3]
      rw [show (some (v ++ ".js")).bind envCycle.readFile = some "arrow" from hrf]
      rfl
    have hv1b : v ∉ (setError v "SyntaxError" (addUncompatible v (logEv (Event.parseScript v)
        (logEv (Event.readScript v)
          (logEv (Event.resolveDep v) (logEv (Event.readManifest u) st)))))).compatible := by
      rw [setError_compatible, addUncompatible_compatible]; exact hv1
    have hv3b : v ∉ (setError v "SyntaxError" (addUncompatible v (logEv (Event.parseScript v)
        (logEv (Event.readScript v)
          (logEv (Event.resolveDep v) (logEv (Event.readManifest u) st)))))).cannotopen := by
      rw [setError_cannotopen, addUncompatible_cannotopen]; exact hv3
    have hu1b : u ∉ (setError v "SyntaxError" (addUncompatible v (logEv (Event.parseScript v)
        (logEv (Event.readScript v)
          (logEv (Event.resolveDep v) (logEv (Event.readManifest u) st)))))).compatible := by
      rw [setError_compatible, addUncompatible_compatible]; exact hu1
    have hu3b : u ∉ (setError v "SyntaxError" (addUncompatible v (logEv (Event.parseScript v)
        (logEv (Event.readScript v)
          (logEv (Event.resolveDep v) (logEv (Event.readManifest u) st)))))).cannotopen := by
      rw [setError_cannotopen, addUncompatible_cannotopen]; exact hu3
    have hsub := hih _ hv1b hv3b hu1b hu3b
    simp [hcs, hsub]

theorem cycle_stuck :
    ∀ (fuel : Nat) (st : St),
      "a" ∉ st.compatible → "a" ∉ st.cannotopen → "b" ∉ st.compatible → "b" ∉ st.cannotopen →
      (checkDependencies fuel "a" (depDir optsW "a") optsW envCycle st).2 = false ∧
      (checkDependencies fuel "b" (depDir optsW "b") optsW envCycle st).2 = false := by
  intro fuel
  induction fuel with
  | zero => intro st _ _ _ _; exact ⟨rfl, rfl⟩
  | succ f ih =>
    intro st ha1 ha3 hb1 hb3
    constructor
    · exact cycle_branch f "a" "b" st rfl rfl rfl rfl hb1 hb3 ha1 ha3
        (fun s h1 h2 h3 h4 => (ih s h3 h4 h1 h2).2)
    · exact cycle_branch f "b" "a" st rfl rfl rfl rfl ha1 ha3 hb1 hb3
        (fun s h1 h2 h3 h4 => (ih s h1 h2 h3 h4).1)

/-- Claim C1: the claim states that the dependency walk terminates on every
cyclic manifest graph.  The code refutes it: in envCycle, where package a
depends on b and b depends on a and both entry scripts fail to parse, the
walk started at a never completes for any recursion budget, because a
cached Incompatible classification makes checkScript return false and the
walker then re-reads the manifest of the dependency and redescends, forever
alternating between a and b. -/
theorem cycle_walk_never_completes (fuel : Nat) :
    (checkDependencies fuel "a" (depDir optsW "a") optsW envCycle St.empty).2 = false :=
  (cycle_stuck fuel St.empty (by decide) (by decide) (by decide) (by decide)).1

/-- Claim C2, counterexample: in envRevisit the run terminates, yet the
manifest of package a is read twice and the entry script of package e is
resolved twice, although e already has a recorded state at its second
encounter (its script is read and parsed exactly once).  This refutes the
claim that each distinct name triggers at most one manifest read and that
later encounters of a recorded name perform no further resolution. -/
theorem revisit_repeats_resolution_and_manifest_reads :
    (checkDependencies 10 "root" "rootdir" optsW envRevisit St.empty).2 = true ∧
    countEv (Event.readManifest "a")
      (checkDependencies 10 "root" "rootdir" optsW envRevisit St.empty).1.log = 2 ∧
    countEv (Event.resolveDep "e")
      (checkDependencies 10 "root" "rootdir" optsW envRevisit St.empty).1.log = 2 ∧
    countEv (Event.readScript "e")
      (checkDependencies 10 "root" "rootdir" optsW envRevisit St.empty).1.log = 1 ∧
    countEv (Event.parseScript "e")
      (checkDependencies 10 "root" "rootdir" optsW envRevisit St.empty).1.log = 1 := by
  decide

/-- Claim C2, amended: over any whole run from the empty store, each
distinct package name triggers at most one script read and at most one
parse; path resolution and manifest reads, however, are not bounded per
name. -/
theorem at_most_one_read_and_parse_per_name (fuel : Nat) (n path x : String)
    (opts : Options) (env : Env) :
    readCount x (checkDependencies fuel n path opts env St.empty).1 ≤ 1 ∧
    parseCount x (checkDependencies fuel n path opts env St.empty).1 ≤ 1 := by
  have h := checkDependencies_rp fuel n path opts env St.empty rp_empty
  exact ⟨(h x).1, (h x).2.1⟩

/-- Claim C3: the claim states that for a readable root manifest the run
classifies the root entry script, then walks the declared dependencies and
renders the report.  The code classifies the root and then crashes with an
uncaught TypeError at the dependency-walk call site, which passes three
arguments to the four-parameter checkDependencies; the walk never runs and
the report is never rendered. -/
theorem root_classified_then_walk_crashes (a b : String) (opts : Options) (env : Env)
    (st : St) (m : Manifest) (h : env.readManifest b = some m) :
    checkEsCompatible a b opts env st =
      Except.error (typeErrorMessage,
        (checkScript (if a = "." then m.name else a) (mainScriptPath b m) opts env st).1) := by
  unfold checkEsCompatible
  rw [h]

/-- Claim C3, witness: the concrete healthy environment instantiates the
theorem. -/
theorem root_classified_then_walk_crashes_witness :
    envOk.readManifest "." = some rootManifest ∧
    checkEsCompatible "." "." optsW envOk St.empty =
      Except.error (typeErrorMessage,
        (checkScript (if "." = "." then rootManifest.name else ".")
          (mainScriptPath "." rootManifest) optsW envOk St.empty).1) :=
  ⟨by decide, root_classified_then_walk_crashes "." "." optsW envOk St.empty rootManifest (by decide)⟩

/-- Claim C4: the claim states that checkEsCompatible returns true exactly
when the uncompatible set is empty.  In the concrete healthy run the
uncompatible set stays empty and the aggregate expression would evaluate to
true, yet checkEsCompatible never returns at all: it crashes with the
uncaught TypeError of the miscalled dependency walk. -/
theorem aggregate_never_returned :
    completedRun (checkEsCompatible "." "." optsW envOk St.empty) = false ∧
    (crashState (checkEsCompatible "." "." optsW envOk St.empty)).uncompatible = [] ∧
    aggregateResult (crashState (checkEsCompatible "." "." optsW envOk St.empty)) = true := by
  decide

/-- Claim C5, counterexample: a present resolved path with a stylesheet
suffix is read (one read attempt) and parsed (one parse attempt), and the
name is recorded uncompatible, which makes the aggregate result false; no
NonSource state exists in the code.  This refutes the claimed zero-read
zero-parse NonSource bypass. -/
theorem stylesheet_path_read_and_parsed :
    readCount "styles" (checkScript "styles" (some "theme.css") optsW envCss St.empty).1 = 1 ∧
    parseCount "styles" (checkScript "styles" (some "theme.css") optsW envCss St.empty).1 = 1 ∧
    "styles" ∈ (checkScript "styles" (some "theme.css") optsW envCss St.empty).1.uncompatible ∧
    aggregateResult (checkScript "styles" (some "theme.css") optsW envCss St.empty).1 = false := by
  decide

/-- Claim C5, amended: a fresh name with a present resolved path receives
no suffix-based special handling: the classifier always performs the read
attempt and, when the content does not parse, a parse attempt, records the
name uncompatible and thereby makes the aggregate result false. -/
theorem no_nonsource_bypass (n path code e : String) (opts : Options) (env : Env) (st : St)
    (h1 : n ∉ st.compatible) (h2 : n ∉ st.uncompatible) (h3 : n ∉ st.cannotopen)
    (hr : env.readFile path = some code)
    (hp : env.parse opts.esVersion code = Except.error e) :
    readCount n (checkScript n (some path) opts env st).1 = readCount n st + 1 ∧
    parseCount n (checkScript n (some path) opts env st).1 = parseCount n st + 1 ∧
    n ∈ (checkScript n (some path) opts env st).1.uncompatible ∧
    aggregateResult (checkScript n (some path) opts env st).1 = false := by
  have hcs : checkScript n (some path) opts env st =
      (setError n e (addUncompatible n (logEv (Event.parseScript n)
        (logEv (Event.readScript n) st))), some false) := by
    rw [checkScript_fresh_shape n (some path) opts env st h1 h2 h3]
    rw [show (some path).bind env.readFile = some code from hr]
    dsimp only
    rw [hp]
  rw [hcs]
  refine ⟨?_, ?_, ?_, ?_⟩
  · rw [readCount_congr _ _ (setError_log n e _) n,
      readCount_congr _ _ (addUncompatible_log n _) n, readCount_logEv, readCount_logEv]
    simp
  · rw [parseCount_congr _ _ (setError_log n e _) n,
      parseCount_congr _ _ (addUncompatible_log n _) n, parseCount_logEv, parseCount_logEv]
    simp
  · rw [setError_uncompatible]
    exact mem_addUncompatible_self n _
  · unfold aggregateResult
    rw [setError_uncompatible]
    unfold addUncompatible
    split
    next hmem => exact absurd hmem h2
    next hmem => simp

/-- Claim C5, amended witness: the stylesheet environment instantiates the
amended theorem. -/
theorem no_nonsource_bypass_witness :
    envCss.readFile "theme.css" = some "some css text" ∧
    envCss.parse optsW.esVersion "some css text" = Except.error "SyntaxError" ∧
    (readCount "styles" (checkScript "styles" (some "theme.css") optsW envCss St.empty).1 =
        readCount "styles" St.empty + 1 ∧
      parseCount "styles" (checkScript "styles" (some "theme.css") optsW envCss St.empty).1 =
        parseCount "styles" St.empty + 1 ∧
      "styles" ∈ (checkScript "styles" (some "theme.css") optsW envCss St.empty).1.uncompatible ∧
      aggregateResult (checkScript "styles" (some "theme.css") optsW envCss St.empty).1 = false) :=
  ⟨by decide, rfl,
    no_nonsource_bypass "styles" "theme.css" "some css text" "SyntaxError" optsW envCss St.empty
      (by decide) (by decide) (by decide) rfl rfl⟩

/-- Claim C6, counterexample: in envDouble the dependency a has a readable
entry script that fails to parse and an unreadable manifest; the run first
records a uncompatible, then the walker redescends and records the same
name cannotopen as well, so a name can be recorded in two classification
sets at once, refuting mutual exclusivity. -/
theorem name_in_two_sets :
    "a" ∈ (checkDependencies 5 "root" "rootdir" optsW envDouble St.empty).1.uncompatible ∧
    "a" ∈ (checkDependencies 5 "root" "rootdir" optsW envDouble St.empty).1.cannotopen := by
  decide

/-- Claim C6, amended: classification entries are never removed or
overwritten: any name present in one of the three sets before a call to
checkScript or checkDependencies is still present in that set afterwards
(the sets grow monotonically); mutual exclusivity, however, does not hold. -/
theorem classification_never_removed (fuel : Nat) (n path : String) (p : Option String)
    (opts : Options) (env : Env) (st : St) (x : String) :
    (x ∈ st.compatible → x ∈ (checkScript n p opts env st).1.compatible) ∧
    (x ∈ st.uncompatible → x ∈ (checkScript n p opts env st).1.uncompatible) ∧
    (x ∈ st.cannotopen → x ∈ (checkScript n p opts env st).1.cannotopen) ∧
    (x ∈ st.compatible → x ∈ (checkDependencies fuel n path opts env st).1.compatible) ∧
    (x ∈ st.uncompatible → x ∈ (checkDependencies fuel n path opts env st).1.uncompatible) ∧
    (x ∈ st.cannotopen → x ∈ (checkDependencies fuel n path opts env st).1.cannotopen) := by
  have g1 := checkScript_grows n p opts env st
  have g2 := checkDependencies_grows fuel n path opts env st
  exact ⟨g1.1 x, g1.2.1 x, g1.2.2.1 x, g2.1 x, g2.2.1 x, g2.2.2.1 x⟩

/-- Claim C6, amended witness: a concrete store with a recorded name keeps
it through a concrete walk. -/
theorem classification_never_removed_witness :
    "z" ∈ (⟨["z"], [], [], [], []⟩ : St).compatible ∧
    "z" ∈ (checkDependencies 3 "root" "rootdir" optsW envOk
      (⟨["z"], [], [], [], []⟩ : St)).1.compatible :=
  ⟨by decide,
    (classification_never_removed 3 "root" "rootdir" none optsW envOk
      (⟨["z"], [], [], [], []⟩ : St) "z").2.2.2.1 (by decide)⟩

/-- Claim C7, counterexample: the first classification of a name with an
unreadable script returns false, while the second call for the now cached
cannotopen name returns undefined (none), not the result the first call
produced; the store is left unchanged by the second call. -/
theorem cached_cannotopen_second_call_differs :
    (checkScript "a" none optsW envOk St.empty).2 = some false ∧
    (checkScript "a" none optsW envOk ((checkScript "a" none optsW envOk St.empty).1)).2 = none ∧
    (checkScript "a" none optsW envOk ((checkScript "a" none optsW envOk St.empty).1)).1 =
      (checkScript "a" none optsW envOk St.empty).1 := by
  decide

/-- Claim C7, amended: a call for an already recorded name performs no read
and no parse and leaves the store entirely unchanged; it returns true for a
cached compatible name, false for a cached uncompatible name, and undefined
(none) for a cached cannotopen name, which for cannotopen differs from the
false the first call produced. -/
theorem cached_call_no_io_store_unchanged (n : String) (p : Option String) (opts : Options)
    (env : Env) (st : St) (h : st.recorded n) :
    (checkScript n p opts env st).1 = st ∧
    (checkScript n p opts env st).2 =
      (if n ∈ st.compatible then some true
        else if n ∈ st.uncompatible then some false else none) := by
  by_cases h1 : n ∈ st.compatible
  · rw [checkScript_cached_compatible n p opts env st h1]
    simp [h1]
  by_cases h2 : n ∈ st.uncompatible
  · rw [checkScript_cached_uncompatible n p opts env st h1 h2]
    simp [h1, h2]
  have hor : n ∈ st.compatible ∨ n ∈ st.uncompatible ∨ n ∈ st.cannotopen := h
  have h3 : n ∈ st.cannotopen := by
    rcases hor with a | a | a
    · exact absurd a h1
    · exact absurd a h2
    · exact a
  rw [checkScript_cached_cannotopen n p opts env st h1 h2 h3]
  simp [h1, h2]

/-- Claim C7, amended witness: concrete cached cannotopen store. -/
theorem cached_call_no_io_store_unchanged_witness :
    (⟨[], [], ["a"], [], []⟩ : St).recorded "a" ∧
    ((checkScript "a" none optsW envOk (⟨[], [], ["a"], [], []⟩ : St)).1 =
        (⟨[], [], ["a"], [], []⟩ : St) ∧
      (checkScript "a" none optsW envOk (⟨[], [], ["a"], [], []⟩ : St)).2 =
        (if "a" ∈ (⟨[], [], ["a"], [], []⟩ : St).compatible then some true
          else if "a" ∈ (⟨[], [], ["a"], [], []⟩ : St).uncompatible then some false
          else none)) :=
  ⟨by decide,
    cached_call_no_io_store_unchanged "a" none optsW envOk
      (⟨[], [], ["a"], [], []⟩ : St) (by decide)⟩

/-- Claim C8, counterexample: the walker always unions peer dependency
names into the processed list; no peer-dependency toggle exists in the
options, so a peer dependency is processed although peer checking was never
enabled. -/
theorem peer_dependencies_always_included :
    depsOf peerManifest = ["a", "b"] ∧
    "a" ∈ depsOf peerManifest ∧
    "a" ∉ peerManifest.dependencies ∧
    "a" ∈ peerManifest.peerDependencies := by
  decide

/-- Claim C8, amended: for every manifest the walker processes exactly the
runtime dependency names together with the peer dependency names,
unconditionally, in sorted order. -/
theorem walker_list_sorted_union (m : Manifest) (x : String) :
    List.Sorted StrLeRel (depsOf m) ∧
    (x ∈ depsOf m ↔ (x ∈ m.dependencies ∨ x ∈ m.peerDependencies)) := by
  constructor
  · exact List.sorted_insertionSort StrLeRel (m.dependencies ++ m.peerDependencies)
  · rw [depsOf, List.mem_insertionSort, List.mem_append]

/-- Claim C8, amended witness: the peer manifest instantiates the theorem. -/
theorem walker_list_sorted_union_witness :
    List.Sorted StrLeRel (depsOf peerManifest) ∧
    ("a" ∈ depsOf peerManifest ↔
      ("a" ∈ peerManifest.dependencies ∨ "a" ∈ peerManifest.peerDependencies)) :=
  walker_list_sorted_union peerManifest "a"

/-- Claim C9, counterexample: in the concrete healthy run the uncompatible
set is empty at the end (the aggregate expression would be true), yet the
package mode process exits with failure, because the run dies on the
uncaught TypeError of the miscalled dependency walk; the boolean result of
checkEsCompatible is in any case discarded by the top level. -/
theorem package_mode_failure_despite_empty_uncompatible :
    packageModeExit "." optsW envOk = 1 ∧
    (crashState (checkEsCompatible "." "." optsW envOk St.empty)).uncompatible = [] := by
  decide

/-- Claim C9, amended: in package mode the process always exits with
failure, for every environment and configuration: either the root manifest
is unreadable (uncaught require error) or the dependency-walk call site
raises its uncaught TypeError before any aggregate is computed. -/
theorem package_mode_always_exits_failure (a : String) (opts : Options) (env : Env) :
    packageModeExit a opts env = 1 := by
  unfold packageModeExit checkEsCompatible
  cases env.readManifest (if a = "." then "." else depDir opts a) <;> rfl

/-- Claim C10: a cached cannotopen name makes checkScript fall through its
if-chain and return undefined (none), while cached compatible returns true
and cached uncompatible returns false; since the walker recurses whenever
the result is not true, a dependency whose state is cached cannotopen still
triggers a fresh manifest read attempt (and descent) at every later
encounter. -/
theorem cached_cannotopen_returns_undefined_walker_redescends
    (opts : Options) (env : Env) (st : St) (a b c : String) (p : Option String) (fuel : Nat)
    (h1 : a ∉ st.compatible) (h2 : a ∉ st.uncompatible) (h3 : a ∈ st.cannotopen)
    (h4 : b ∈ st.compatible)
    (h5 : c ∉ st.compatible) (h6 : c ∈ st.uncompatible) :
    checkScript a p opts env st = (st, none) ∧
    checkScript b p opts env st = (st, some true) ∧
    checkScript c p opts env st = (st, some false) ∧
    Event.readManifest a ∈
      (dependencyLoop opts env
        (fun d s => checkDependencies (fuel + 1) d (depDir opts d) opts env s) [a] st).1.log := by
  refine ⟨checkScript_cached_cannotopen a p opts env st h1 h2 h3,
    checkScript_cached_compatible b p opts env st h4,
    checkScript_cached_uncompatible c p opts env st h5 h6, ?_⟩
  have hcs : checkScript a (env.resolveScript a) opts env (logEv (Event.resolveDep a) st) =
      (logEv (Event.resolveDep a) st, none) :=
    checkScript_cached_cannotopen a _ opts env _ h1 h2 h3
  have hlog : Event.readManifest a ∈
      (checkDependencies (fuel + 1) a (depDir opts a) opts env
        (logEv (Event.resolveDep a) st)).1.log := by
    simp only [checkDependencies]
    cases hm : env.readManifest (depDir opts a) with
    | none =>
      rw [addCannotOpen_log, logEv_log]
      exact List.mem_append_right _ (List.mem_singleton_self _)
    | some m =>
      have hg := dependencyLoop_grows opts env
        (fun d s => checkDependencies fuel d (depDir opts d) opts env s)
        (fun d s => checkDependencies_grows fuel d (depDir opts d) opts env s)
        (depsOf m) (logEv (Event.readManifest a) (logEv (Event.resolveDep a) st))
      refine hg.2.2.2 _ ?_
      rw [logEv_log]
      exact List.mem_append_right _ (List.mem_singleton_self _)
  simp only [dependencyLoop, hcs]
  rw [if_neg (by simp)]
  split
  · exact hlog
  · exact hlog

/-- Claim C10, witness: a concrete store with all three cache states
instantiates the theorem. -/
theorem cached_cannotopen_returns_undefined_walker_redescends_witness :
    ("a" ∉ (⟨["b"], ["c"], ["a"], [], []⟩ : St).compatible ∧
      "a" ∈ (⟨["b"], ["c"], ["a"], [], []⟩ : St).cannotopen ∧
      "b" ∈ (⟨["b"], ["c"], ["a"], [], []⟩ : St).compatible ∧
      "c" ∈ (⟨["b"], ["c"], ["a"], [], []⟩ : St).uncompatible) ∧
    (checkScript "a" none optsW envOk (⟨["b"], ["c"], ["a"], [], []⟩ : St) =
        ((⟨["b"], ["c"], ["a"], [], []⟩ : St), none) ∧
      checkScript "b" none optsW envOk (⟨["b"], ["c"], ["a"], [], []⟩ : St) =
        ((⟨["b"], ["c"], ["a"], [], []⟩ : St), some true) ∧
      checkScript "c" none optsW envOk (⟨["b"], ["c"], ["a"], [], []⟩ : St) =
        ((⟨["b"], ["c"], ["a"], [], []⟩ : St), some false) ∧
      Event.readManifest "a" ∈
        (dependencyLoop optsW envOk
          (fun d s => checkDependencies (0 + 1) d (depDir optsW d) optsW envOk s)
          ["a"] (⟨["b"], ["c"], ["a"], [], []⟩ : St)).1.log) :=
  ⟨⟨by decide, by decide, by decide, by decide⟩,
    cached_cannotopen_returns_undefined_walker_redescends optsW envOk
      (⟨["b"], ["c"], ["a"], [], []⟩ : St) "a" "b" "c" none 0
      (by decide) (by decide) (by decide) (by decide) (by decide) (by decide)⟩

end CheckEsVersion
